import Mathlib

/-!
Verification of the deployment-orchestrator domain model.

Shallow embedding of the Python sources under `src/orchestrator/`:
pure data classes become Lean structures, mutating methods become
functions `State → Except (Error × State) State` (the error payload
carries the object state at raise time, mirroring the fact that field
assignments made before a raised exception persist on the object),
and the repository-backed services pass an explicit store.

Wall-clock fields (`created_at`, `updated_at`, `started_at`,
`completed_at`) are outside the model; `touch()` is kept as the
`version` counter increment it also performs.
-/

namespace Orch

/-- `DeploymentStatus` from `domain/models/deployment.py`. -/
inductive DeploymentStatus where
  | pending
  | planning
  | planned
  | awaitingApproval
  | approved
  | executing
  | verifying
  | completed
  | failed
  | rollingBack
  | rolledBack
  | cancelled
deriving DecidableEq, Repr

/-- `VALID_TRANSITIONS` from `domain/models/deployment.py` (the Python
dict of sets, rendered as a function to lists). -/
def validTransitions : DeploymentStatus → List DeploymentStatus
  | .pending => [.planning, .cancelled]
  | .planning => [.planned, .failed]
  | .planned => [.awaitingApproval, .approved, .executing, .cancelled]
  | .awaitingApproval => [.approved, .cancelled]
  | .approved => [.executing, .cancelled]
  | .executing => [.verifying, .failed, .rollingBack]
  | .verifying => [.completed, .failed, .rollingBack]
  | .completed => []
  | .failed => [.rollingBack, .pending]
  | .rollingBack => [.rolledBack, .failed]
  | .rolledBack => [.pending]
  | .cancelled => []

/-- `DeploymentStrategy` from `domain/models/deployment.py`. -/
inductive DeploymentStrategy where
  | rolling
  | blueGreen
  | canary
  | recreate
deriving DecidableEq, Repr

/-- The `.value` of a `DeploymentStrategy` enum member. -/
def DeploymentStrategy.value : DeploymentStrategy → String
  | .rolling => "rolling"
  | .blueGreen => "blue_green"
  | .canary => "canary"
  | .recreate => "recreate"

/-- `CloudProviderType` from `domain/models/cloud_provider.py`. -/
inductive CloudProviderType where
  | aws
  | azure
  | gcp
deriving DecidableEq, Repr

/-- The `.value` of a `CloudProviderType` enum member. -/
def CloudProviderType.value : CloudProviderType → String
  | .aws => "aws"
  | .azure => "azure"
  | .gcp => "gcp"

/-- `ResourceType` from `domain/models/cloud_provider.py`. -/
inductive ResourceType where
  | compute
  | storage
  | database
  | network
  | container
  | serverless
  | loadBalancer
  | dns
  | cdn
  | queue
  | cache
deriving DecidableEq, Repr

/-- The `.value` of a `ResourceType` enum member. -/
def ResourceType.value : ResourceType → String
  | .compute => "compute"
  | .storage => "storage"
  | .database => "database"
  | .network => "network"
  | .container => "container"
  | .serverless => "serverless"
  | .loadBalancer => "load_balancer"
  | .dns => "dns"
  | .cdn => "cdn"
  | .queue => "queue"
  | .cache => "cache"

/-- `ResourceSpec` from `domain/models/cloud_provider.py`.  The
free-form `properties`/`tags` dicts are modelled as string pairs. -/
structure ResourceSpec where
  resource_type : ResourceType
  provider : CloudProviderType
  region : String
  name : String
  properties : List (String × String) := []
  tags : List (String × String) := []
  dependencies : List String := []
deriving DecidableEq, Repr

/-- `ResourceSpec.resource_identifier`. -/
def ResourceSpec.resource_identifier (r : ResourceSpec) : String :=
  r.provider.value ++ "/" ++ r.region ++ "/" ++ r.resource_type.value ++ "/" ++ r.name

/-- `DeploymentIntent` from `domain/models/deployment.py`. -/
structure DeploymentIntent where
  description : String
  target_providers : List CloudProviderType
  target_regions : List String := []
  resources : List ResourceSpec := []
  strategy : DeploymentStrategy := .rolling
  auto_approve : Bool := false
  rollback_on_failure : Bool := true
  environment : String := "staging"
deriving DecidableEq, Repr

/-- `ExecutionStep` from `domain/models/deployment.py`. -/
structure ExecutionStep where
  step_id : String
  name : String
  description : String
  provider : CloudProviderType
  resource_spec : ResourceSpec
  terraform_action : String
  dependencies : List String := []
  estimated_duration_seconds : Int := 60
  idempotency_key : String
  retry_count : Int := 0
  max_retries : Int := 3
deriving DecidableEq, Repr

/-- `ExecutionPlan` from `domain/models/deployment.py`. -/
structure ExecutionPlan where
  plan_id : String
  steps : List ExecutionStep := []
  estimated_total_duration_seconds : Int := 0
  risk_assessment : String := "low"
  reasoning : String := ""
  terraform_plan_output : String := ""
deriving DecidableEq, Repr

/-- `ExecutionPlan.step_count`. -/
def ExecutionPlan.step_count (p : ExecutionPlan) : Nat :=
  p.steps.length

/-- `StepResult` from `domain/models/deployment.py`. -/
structure StepResult where
  step_id : String
  success : Bool
  output : String := ""
  error_message : String := ""
  resource_ids : List (String × String) := []
  idempotency_key : String := ""
  attempt_number : Int := 1
deriving DecidableEq, Repr

/-- The domain events raised by the `Deployment` aggregate
(`domain/events/deployment_events.py`); each carries the payload
fields used by `add_event` call sites. -/
inductive DomainEvent where
  | planGenerated (deployment_id : String) (plan_id : String)
      (step_count : Nat) (correlation_id : String)
  | approvedEvent (deployment_id : String) (approved_by : String)
      (correlation_id : String)
  | started (deployment_id : String) (correlation_id : String)
  | completedEvent (deployment_id : String) (correlation_id : String)
  | failedEvent (deployment_id : String) (error_message : String)
      (correlation_id : String)
  | rollbackStarted (deployment_id : String) (correlation_id : String)
  | rollbackCompleted (deployment_id : String) (correlation_id : String)
deriving DecidableEq, Repr

/-- `Deployment` aggregate root from `domain/models/deployment.py`.
`events` is the aggregate's `_domain_events` buffer; `version` is the
counter bumped by `touch()`. -/
structure Deployment where
  id : String
  name : String
  intent : DeploymentIntent
  status : DeploymentStatus := .pending
  plan : Option ExecutionPlan := none
  step_results : List StepResult := []
  initiated_by : String := ""
  tenant_id : String := ""
  error_message : String := ""
  rollback_deployment_id : Option String := none
  events : List DomainEvent := []
  version : Int := 1
deriving DecidableEq, Repr

/-- Errors raised by the domain layer. -/
inductive DomainError where
  | invalidStateTransition
  | invalidTaskTransition
  | maxRetriesExceeded
  | deploymentNotFound
  | deploymentPlanMissing
  | deploymentLockError
  | driftScanError
deriving DecidableEq, Repr

/-- `DomainEntity.touch()` (timestamp update elided, version bump kept). -/
def Deployment.touch (d : Deployment) : Deployment :=
  { d with version := d.version + 1 }

/-- `AggregateRoot.add_event`. -/
def Deployment.add_event (d : Deployment) (e : DomainEvent) : Deployment :=
  { d with events := d.events ++ [e] }

/-- `Deployment._transition_to`: validate against `VALID_TRANSITIONS`,
then assign the status and `touch()`.  On failure the object is
returned unmodified inside the error, as no assignment precedes the
raise. -/
def Deployment.transition_to (d : Deployment) (new_status : DeploymentStatus) :
    Except (DomainError × Deployment) Deployment :=
  if new_status ∈ validTransitions d.status then
    .ok (Deployment.touch { d with status := new_status })
  else
    .error (.invalidStateTransition, d)

/-- `Deployment.start_planning`. -/
def Deployment.start_planning (d : Deployment) :
    Except (DomainError × Deployment) Deployment :=
  d.transition_to .planning

/-- `Deployment.approve`. -/
def Deployment.approve (d : Deployment) (approved_by : String) :
    Except (DomainError × Deployment) Deployment := do
  let d ← d.transition_to .approved
  pure (d.add_event (.approvedEvent d.id approved_by d.id))

/-- `Deployment.set_plan`: the plan is assigned *before* the
transition is validated, so a failing transition leaves the plan
attached (mirrors the Python statement order). -/
def Deployment.set_plan (d : Deployment) (plan : ExecutionPlan) :
    Except (DomainError × Deployment) Deployment := do
  let d : Deployment := { d with plan := some plan }
  let d ← d.transition_to .planned
  let d := d.add_event (.planGenerated d.id plan.plan_id plan.step_count d.id)
  if d.intent.auto_approve then
    d.approve "auto"
  else
    d.transition_to .awaitingApproval

/-- `Deployment.start_execution`. -/
def Deployment.start_execution (d : Deployment) :
    Except (DomainError × Deployment) Deployment := do
  let d ← d.transition_to .executing
  pure (d.add_event (.started d.id d.id))

/-- `Deployment.start_verification`. -/
def Deployment.start_verification (d : Deployment) :
    Except (DomainError × Deployment) Deployment :=
  d.transition_to .verifying

/-- `Deployment.complete`. -/
def Deployment.complete (d : Deployment) :
    Except (DomainError × Deployment) Deployment := do
  let d ← d.transition_to .completed
  pure (d.add_event (.completedEvent d.id d.id))

/-- `Deployment.fail`: `error_message` is assigned *before* the
transition is validated (mirrors the Python statement order). -/
def Deployment.fail (d : Deployment) (error_message : String) :
    Except (DomainError × Deployment) Deployment := do
  let d : Deployment := { d with error_message := error_message }
  let d ← d.transition_to .failed
  pure (d.add_event (.failedEvent d.id error_message d.id))

/-- `Deployment.start_rollback`. -/
def Deployment.start_rollback (d : Deployment) :
    Except (DomainError × Deployment) Deployment := do
  let d ← d.transition_to .rollingBack
  pure (d.add_event (.rollbackStarted d.id d.id))

/-- `Deployment.complete_rollback`. -/
def Deployment.complete_rollback (d : Deployment) :
    Except (DomainError × Deployment) Deployment := do
  let d ← d.transition_to .rolledBack
  pure (d.add_event (.rollbackCompleted d.id d.id))

/-- `Deployment.cancel`. -/
def Deployment.cancel (d : Deployment) :
    Except (DomainError × Deployment) Deployment :=
  d.transition_to .cancelled

/-- `Deployment.record_step_result`: append, `touch()`, then fail the
deployment when the result failed and the intent asks for rollback. -/
def Deployment.record_step_result (d : Deployment) (result : StepResult) :
    Except (DomainError × Deployment) Deployment :=
  let d := Deployment.touch { d with step_results := d.step_results ++ [result] }
  if !result.success && d.intent.rollback_on_failure then
    d.fail ("Step " ++ result.step_id ++ " failed: " ++ result.error_message)
  else
    .ok d

/-- `Deployment.is_terminal`. -/
def Deployment.is_terminal (d : Deployment) : Bool :=
  d.status = DeploymentStatus.completed ∨
  d.status = DeploymentStatus.cancelled ∨
  d.status = DeploymentStatus.rolledBack

/-- `Deployment.progress_percentage`, over exact rationals in place of
Python floats. -/
def Deployment.progress_percentage (d : Deployment) : ℚ :=
  match d.plan with
  | none => 0
  | some plan =>
      if plan.steps.isEmpty then 0
      else ((d.step_results.length : ℚ) / (plan.steps.length : ℚ)) * 100

/-- The lifecycle methods of the `Deployment` aggregate, as first-class
calls so lifecycle-wide properties can quantify over them. -/
inductive LifecycleCall where
  | startPlanning
  | setPlan (plan : ExecutionPlan)
  | approveCall (approved_by : String)
  | startExecution
  | startVerification
  | completeCall
  | failCall (error_message : String)
  | startRollback
  | completeRollback
  | cancelCall
deriving DecidableEq, Repr

/-- Dispatch a `LifecycleCall` to the corresponding aggregate method. -/
def LifecycleCall.apply : LifecycleCall → Deployment →
    Except (DomainError × Deployment) Deployment
  | .startPlanning, d => d.start_planning
  | .setPlan plan, d => d.set_plan plan
  | .approveCall approved_by, d => d.approve approved_by
  | .startExecution, d => d.start_execution
  | .startVerification, d => d.start_verification
  | .completeCall, d => d.complete
  | .failCall msg, d => d.fail msg
  | .startRollback, d => d.start_rollback
  | .completeRollback, d => d.complete_rollback
  | .cancelCall, d => d.cancel

/-- The status each lifecycle call first attempts to transition to
(the argument of its leading `_transition_to`). -/
def LifecycleCall.target : LifecycleCall → DeploymentStatus
  | .startPlanning => .planning
  | .setPlan _ => .planned
  | .approveCall _ => .approved
  | .startExecution => .executing
  | .startVerification => .verifying
  | .completeCall => .completed
  | .failCall _ => .failed
  | .startRollback => .rollingBack
  | .completeRollback => .rolledBack
  | .cancelCall => .cancelled

/-- The status a lifecycle call leaves the aggregate in when it
succeeds: the target, except that `set_plan` continues on to
APPROVED or AWAITING_APPROVAL. -/
def LifecycleCall.finalStatus (c : LifecycleCall) (d : Deployment) : DeploymentStatus :=
  match c with
  | .setPlan _ =>
      if d.intent.auto_approve then .approved else .awaitingApproval
  | _ => c.target

/-!  ## Task model (`domain/models/task.py`)  -/

/-- `TaskStatus` from `domain/models/task.py`. -/
inductive TaskStatus where
  | pending
  | queued
  | acquired
  | running
  | succeeded
  | failed
  | retrying
  | cancelled
  | timedOut
deriving DecidableEq, Repr

/-- `TASK_VALID_TRANSITIONS` from `domain/models/task.py`. -/
def taskValidTransitions : TaskStatus → List TaskStatus
  | .pending => [.queued, .cancelled]
  | .queued => [.acquired, .cancelled, .timedOut]
  | .acquired => [.running, .cancelled]
  | .running => [.succeeded, .failed, .timedOut]
  | .succeeded => []
  | .failed => [.retrying, .cancelled]
  | .retrying => [.queued]
  | .cancelled => []
  | .timedOut => [.retrying, .cancelled, .failed]

/-- `Task` aggregate from `domain/models/task.py`.  `input_data` holds
exactly what `execute_deployment` stores there (a resource spec and a
dependency list); `output_data` dicts are modelled as string pairs. -/
structure Task where
  id : String
  deployment_id : String
  step_id : String
  name : String
  description : String := ""
  status : TaskStatus := .pending
  provider : CloudProviderType := .aws
  terraform_action : String := "apply"
  worker_id : Option String := none
  idempotency_key : String
  attempt_number : Int := 1
  max_attempts : Int := 3
  timeout_seconds : Int := 300
  input_data : Option (ResourceSpec × List String) := none
  output_data : List (String × String) := []
  error_message : String := ""
  version : Int := 1
deriving DecidableEq, Repr

/-- `DomainEntity.touch()` for tasks. -/
def Task.touch (t : Task) : Task :=
  { t with version := t.version + 1 }

/-- `Task._transition_to`. -/
def Task.transition_to (t : Task) (new_status : TaskStatus) :
    Except (DomainError × Task) Task :=
  if new_status ∈ taskValidTransitions t.status then
    .ok (Task.touch { t with status := new_status })
  else
    .error (.invalidTaskTransition, t)

/-- `Task.enqueue`. -/
def Task.enqueue (t : Task) : Except (DomainError × Task) Task :=
  t.transition_to .queued

/-- `Task.acquire`. -/
def Task.acquire (t : Task) (worker_id : String) :
    Except (DomainError × Task) Task := do
  let t ← t.transition_to .acquired
  pure { t with worker_id := some worker_id }

/-- `Task.start` (the `started_at` timestamp is outside the model). -/
def Task.start (t : Task) : Except (DomainError × Task) Task :=
  t.transition_to .running

/-- The output-recording half of `Task.succeed`: `if output:
self.output_data = output` (a `None` or empty dict is falsy). -/
def Task.withOutput (t : Task) (output : Option (List (String × String))) : Task :=
  match output with
  | some o => if o.isEmpty then t else { t with output_data := o }
  | none => t

/-- `Task.succeed`: store the output when truthy, then transition
(`completed_at` timestamp elided). -/
def Task.succeed (t : Task) (output : Option (List (String × String))) :
    Except (DomainError × Task) Task :=
  (t.withOutput output).transition_to .succeeded

/-- `Task.fail`: `error_message` is assigned before the transition is
validated (mirrors the Python statement order). -/
def Task.fail (t : Task) (error_message : String) :
    Except (DomainError × Task) Task := do
  let t : Task := { t with error_message := error_message }
  t.transition_to .failed

/-- `Task.retry`: guard on the retry budget first, then traverse
RETRYING, clear per-attempt fields, then traverse QUEUED. -/
def Task.retry (t : Task) : Except (DomainError × Task) Task :=
  if t.attempt_number ≥ t.max_attempts then
    .error (.maxRetriesExceeded, t)
  else do
    let t ← t.transition_to .retrying
    let t : Task :=
      { t with attempt_number := t.attempt_number + 1,
               worker_id := none, error_message := "" }
    t.transition_to .queued

/-- `Task.timeout`. -/
def Task.timeout (t : Task) : Except (DomainError × Task) Task :=
  t.transition_to .timedOut

/-- `Task.cancel`. -/
def Task.cancel (t : Task) : Except (DomainError × Task) Task :=
  t.transition_to .cancelled

/-- `Task.is_terminal`. -/
def Task.is_terminal (t : Task) : Bool :=
  t.status = TaskStatus.succeeded ∨ t.status = TaskStatus.cancelled

/-- `Task.can_retry`. -/
def Task.can_retry (t : Task) : Bool :=
  (t.status = TaskStatus.failed ∨ t.status = TaskStatus.timedOut) ∧
  t.attempt_number < t.max_attempts

/-- The mutating methods of `Task`, as first-class calls. -/
inductive TaskCall where
  | enqueueCall
  | acquireCall (worker_id : String)
  | startCall
  | succeedCall (output : Option (List (String × String)))
  | failCall (error_message : String)
  | retryCall
  | timeoutCall
  | cancelCall
deriving DecidableEq, Repr

/-- Dispatch a `TaskCall` to the corresponding task method. -/
def TaskCall.apply : TaskCall → Task → Except (DomainError × Task) Task
  | .enqueueCall, t => t.enqueue
  | .acquireCall w, t => t.acquire w
  | .startCall, t => t.start
  | .succeedCall o, t => t.succeed o
  | .failCall m, t => t.fail m
  | .retryCall, t => t.retry
  | .timeoutCall, t => t.timeout
  | .cancelCall, t => t.cancel

/-- The status each task method attempts to transition to. -/
def TaskCall.target : TaskCall → TaskStatus
  | .enqueueCall => .queued
  | .acquireCall _ => .acquired
  | .startCall => .running
  | .succeedCall _ => .succeeded
  | .failCall _ => .failed
  | .retryCall => .retrying
  | .timeoutCall => .timedOut
  | .cancelCall => .cancelled

/-- The task state an operation leaves behind, whether it returned
normally or raised (the raise-time state). -/
def taskAfter (r : Except (DomainError × Task) Task) : Task :=
  match r with
  | .ok t => t
  | .error (_, t) => t

/-- The deployment state an operation leaves behind, whether it
returned normally or raised (the raise-time state). -/
def depAfter (r : Except (DomainError × Deployment) Deployment) : Deployment :=
  match r with
  | .ok d => d
  | .error (_, d) => d

/-!  ## Concrete sample data used by witnesses and counterexamples  -/

/-- A minimal intent (manual approval, rollback on failure). -/
def sampleIntent : DeploymentIntent :=
  { description := "web tier", target_providers := [.aws] }

/-- A freshly created deployment (status PENDING, no plan). -/
def sampleDep : Deployment :=
  { id := "d1", name := "deploy-staging-aws", intent := sampleIntent }

/-- A one-step execution plan. -/
def sampleStep : ExecutionStep :=
  { step_id := "s1", name := "create-network-aws",
    description := "Create VPC on aws", provider := .aws,
    resource_spec :=
      { resource_type := .network, provider := .aws, region := "us-east-1",
        name := "staging-vpc" },
    terraform_action := "create", estimated_duration_seconds := 30,
    idempotency_key := "k1" }

/-- A one-step plan for concrete runs. -/
def samplePlan : ExecutionPlan :=
  { plan_id := "p1", steps := [sampleStep] }

/-- A deployment sitting in PLANNING. -/
def planningDep : Deployment :=
  { sampleDep with status := .planning }

/-- A deployment in PLANNING whose intent auto-approves. -/
def planningAutoDep : Deployment :=
  { id := "d2", name := "deploy-staging-aws",
    intent := { sampleIntent with auto_approve := true },
    status := .planning }

/-- A FAILED task with retry budget left. -/
def failedTask : Task :=
  { id := "t1", deployment_id := "d1", step_id := "s1",
    name := "create-network-aws", status := .failed,
    idempotency_key := "k1", attempt_number := 1, max_attempts := 3,
    error_message := "boom" }

/-- The same task with its retry budget exhausted. -/
def exhaustedTask : Task :=
  { failedTask with attempt_number := 3 }

/-- A successful result for the single plan step. -/
def okResult : StepResult :=
  { step_id := "s1", success := true, idempotency_key := "k1" }

/-- A COMPLETED (terminal) deployment with a one-step plan that already
has one recorded result. -/
def terminalDep : Deployment :=
  { sampleDep with
    status := .completed, plan := some samplePlan,
    step_results := [okResult] }

/-!  ## Planner (`infrastructure/ai/planning_engine.py`) and wave
partitioning (`ExecutionPlan.get_execution_order`).

Python generates step ids and idempotency keys with `generate_id()`
(UUIDs); the embedding threads an explicit supply `gen : Nat → String`,
the i-th created step drawing its `step_id` and `idempotency_key` from
fixed positions of the supply. -/

/-- `RESOURCE_PRIORITY` (the Python `.get(_, 99)` default is dead code:
every `ResourceType` member has an entry). -/
def RESOURCE_PRIORITY : ResourceType → Nat
  | .network => 1
  | .dns => 2
  | .storage => 3
  | .database => 4
  | .cache => 5
  | .queue => 6
  | .compute => 7
  | .container => 8
  | .serverless => 9
  | .loadBalancer => 10
  | .cdn => 11

/-- `_estimate_step_duration`: the durations table, default 60 for the
types absent from it (dns, cdn, queue). -/
def estimate_step_duration : ResourceType → Int
  | .network => 30
  | .compute => 60
  | .database => 120
  | .container => 90
  | .storage => 15
  | .serverless => 30
  | .loadBalancer => 45
  | .cache => 60
  | _ => 60

/-- The step built for one explicit resource in
`_create_steps_from_resources` (the quotes around the resource name in
the Python f-string description are omitted: the file avoids apostrophe
characters). -/
def mkResourceStep (sid ikey : String) (r : ResourceSpec) : ExecutionStep :=
  { step_id := sid,
    name := "deploy-" ++ r.name,
    description := "Deploy " ++ r.resource_type.value ++ " resource " ++
      r.name ++ " on " ++ r.provider.value,
    provider := r.provider,
    resource_spec := r,
    terraform_action := "create",
    estimated_duration_seconds := estimate_step_duration r.resource_type,
    idempotency_key := ikey }

/-- The list-comprehension body of `_create_steps_from_resources`,
with the id supply threaded by position. -/
def createStepsFromResourcesAux (gen : Nat → String) :
    Nat → List ResourceSpec → List ExecutionStep
  | _, [] => []
  | i, r :: rs =>
      mkResourceStep (gen (2 * i)) (gen (2 * i + 1)) r ::
        createStepsFromResourcesAux gen (i + 1) rs

/-- `_create_steps_from_resources`: stable-sort the intent resources by
type priority, then emit one `create` step per resource.  Python uses
the stable built-in `sorted`; the embedding uses insertion sort with
the same non-strict key order, which is also stable and hence
extensionally the same sort. -/
def create_steps_from_resources (gen : Nat → String)
    (intent : DeploymentIntent) : List ExecutionStep :=
  createStepsFromResourcesAux gen 0
    (intent.resources.insertionSort
      (fun a b => RESOURCE_PRIORITY a.resource_type ≤ RESOURCE_PRIORITY b.resource_type))

/-- The network `ResourceSpec` synthesized per provider in
`_create_default_steps`. -/
def mkNetworkSpec (env region : String) (p : CloudProviderType) : ResourceSpec :=
  { resource_type := .network, provider := p, region := region,
    name := env ++ "-vpc",
    properties := [("cidr_block", "10.0.0.0/16")],
    tags := [("environment", env)] }

/-- The compute `ResourceSpec` synthesized per provider in
`_create_default_steps`; it depends on the network resource. -/
def mkComputeSpec (env region : String) (p : CloudProviderType)
    (networkIdentifier : String) : ResourceSpec :=
  { resource_type := .compute, provider := p, region := region,
    name := env ++ "-app",
    properties := [("instance_type", "t3.medium")],
    tags := [("environment", env)],
    dependencies := [networkIdentifier] }

/-- The per-provider loop body of `_create_default_steps`: one network
step and one compute step (the compute step depends on the network
step's id). -/
def createDefaultStepsAux (gen : Nat → String) (env region : String) :
    Nat → List CloudProviderType → List ExecutionStep
  | _, [] => []
  | i, p :: ps =>
      let networkSpec := mkNetworkSpec env region p
      let networkStep : ExecutionStep :=
        { step_id := gen (4 * i),
          name := "create-network-" ++ p.value,
          description := "Create VPC/VNet on " ++ p.value,
          provider := p, resource_spec := networkSpec,
          terraform_action := "create",
          estimated_duration_seconds := 30,
          idempotency_key := gen (4 * i + 1) }
      let computeStep : ExecutionStep :=
        { step_id := gen (4 * i + 2),
          name := "create-compute-" ++ p.value,
          description := "Create compute instance on " ++ p.value,
          provider := p,
          resource_spec := mkComputeSpec env region p networkSpec.resource_identifier,
          terraform_action := "create",
          estimated_duration_seconds := 60,
          idempotency_key := gen (4 * i + 3),
          dependencies := [networkStep.step_id] }
      networkStep :: computeStep :: createDefaultStepsAux gen env region (i + 1) ps

/-- `_create_default_steps` (the Python computes the region inside the
loop, but it is loop-invariant: first target region or us-east-1). -/
def create_default_steps (gen : Nat → String)
    (intent : DeploymentIntent) : List ExecutionStep :=
  createDefaultStepsAux gen intent.environment
    (intent.target_regions.headD "us-east-1") 0 intent.target_providers

/-- The `resource_to_step` dict of `_resolve_dependencies`: built by
iterating the steps in order with later entries overwriting, so a
lookup returns the *last* step owning the identifier. -/
def resourceToStep (steps : List ExecutionStep) (key : String) : Option String :=
  (steps.reverse.find?
    (fun s => s.resource_spec.resource_identifier == key)).map
    (fun s => s.step_id)

/-- The per-step body of `_resolve_dependencies`: start from the
existing step-id dependencies and append the resolved step id of each
resource-level dependency, skipping falsy (empty) ids, missing
referents and duplicates. -/
def resolve_step (steps : List ExecutionStep) (step : ExecutionStep) : ExecutionStep :=
  { step with
    dependencies :=
      step.resource_spec.dependencies.foldl
        (fun acc depResource =>
          match resourceToStep steps depResource with
          | some sid =>
              if !sid.isEmpty && !acc.contains sid then acc ++ [sid] else acc
          | none => acc)
        step.dependencies }

/-- `_resolve_dependencies`: the map is built from the original list
before the loop, and replacing a step in place alters neither its
`step_id` nor its `resource_spec`, so the in-place update is an
ordinary map over the original list. -/
def resolve_dependencies (steps : List ExecutionStep) : List ExecutionStep :=
  steps.map (resolve_step steps)

/-- `_assess_risk`. -/
def assess_risk (intent : DeploymentIntent) (steps : List ExecutionStep) : String :=
  if intent.environment = "production" then "high"
  else if intent.target_providers.length > 1 then "medium"
  else if steps.length > 10 then "medium"
  else "low"

/-- `_generate_reasoning` (string interpolation rendered as
concatenation; provider list joined with a comma as in Python). -/
def generate_reasoning (intent : DeploymentIntent)
    (steps : List ExecutionStep) : String :=
  "Generated " ++ toString steps.length ++ " execution steps for deployment to " ++
    String.intercalate ", " (intent.target_providers.map (fun p => p.value)) ++
    " using " ++ intent.strategy.value ++ " strategy in " ++ intent.environment ++
    " environment. Risk assessment: " ++ assess_risk intent steps ++ "."

/-- `RuleBasedPlanningEngine.generate_plan`: steps from explicit
resources, else default steps; resolve dependencies; sum durations;
assess risk.  The plan id is threaded explicitly in place of
`generate_id()`. -/
def generate_plan (gen : Nat → String) (plan_id : String)
    (intent : DeploymentIntent) : ExecutionPlan :=
  let steps0 := create_steps_from_resources gen intent
  let steps1 := if steps0.isEmpty then create_default_steps gen intent else steps0
  let steps := resolve_dependencies steps1
  { plan_id := plan_id,
    steps := steps,
    estimated_total_duration_seconds :=
      (steps.map (fun s => s.estimated_duration_seconds)).sum,
    risk_assessment := assess_risk intent steps,
    reasoning := generate_reasoning intent steps }

/-- One iteration of the wave selection in `get_execution_order`: all
remaining steps whose dependencies are completed, or — when none is
eligible (cycle or broken reference) — just the first remaining step
(`remaining.take 1 = [remaining[0]]` on a non-empty list). -/
def geoWave (completed : List String)
    (remaining : List ExecutionStep) : List ExecutionStep :=
  let wave0 := remaining.filter
    (fun s => s.dependencies.all (fun dep => completed.contains dep))
  if wave0.isEmpty then remaining.take 1 else wave0

/-- The `while remaining:` loop of `get_execution_order`, with an
explicit fuel (the loop removes at least one step per iteration, so
`remaining.length` fuel always suffices; `completed` is the Python
set, modelled as a list with membership).  `list.remove` erases the
first occurrence, i.e. `List.erase`. -/
def geoLoop : Nat → List String → List ExecutionStep → List (List ExecutionStep)
  | 0, _, _ => []
  | fuel + 1, completed, remaining =>
      match remaining with
      | [] => []
      | _ :: _ =>
          geoWave completed remaining ::
            geoLoop fuel
              (completed ++ (geoWave completed remaining).map (fun s => s.step_id))
              ((geoWave completed remaining).foldl List.erase remaining)

/-- `ExecutionPlan.get_execution_order`. -/
def ExecutionPlan.get_execution_order (p : ExecutionPlan) :
    List (List ExecutionStep) :=
  geoLoop p.steps.length [] p.steps

/-- Waves respect dependencies relative to an initially-completed set:
every dependency of a step of wave `i` is initially completed or is
the id of a step in a strictly earlier wave. -/
def RespectFrom (completed : List String)
    (waves : List (List ExecutionStep)) : Prop :=
  ∀ i : Nat, ∀ hi : i < waves.length, ∀ s ∈ waves.get ⟨i, hi⟩,
    ∀ dep ∈ s.dependencies,
      dep ∈ completed ∨ dep ∈ ((waves.take i).flatten.map (fun s => s.step_id))

/-- Every step dependency is the id of a step in a strictly earlier
wave. -/
def WavesRespectDeps (waves : List (List ExecutionStep)) : Prop :=
  RespectFrom [] waves

/-- A deployment with a 1-step plan and two recorded results. -/
def overDep : Deployment :=
  { sampleDep with
    status := .executing, plan := some samplePlan,
    step_results := [okResult, okResult] }

/-- Id supply for the cyclic counterexample. -/
def cycGen : Nat → String :=
  fun n => if n = 0 then "0" else if n = 1 then "1" else "x"

/-- A resource that depends on its own resource identifier. -/
def cycResource : ResourceSpec :=
  { resource_type := .network, provider := .aws, region := "r", name := "a",
    dependencies := ["aws/r/network/a"] }

/-- An intent carrying the self-dependent resource. -/
def cycIntent : DeploymentIntent :=
  { description := "cyclic", target_providers := [.aws],
    resources := [cycResource] }

/-- The plan the planner produces for `cycIntent`. -/
def cycPlan : ExecutionPlan := generate_plan cycGen "p" cycIntent

/-- The single step of `cycPlan`, self-dependent after resolution. -/
def cycStep : ExecutionStep :=
  { step_id := "0", name := "deploy-a",
    description := "Deploy network resource a on aws",
    provider := .aws, resource_spec := cycResource,
    terraform_action := "create", dependencies := ["0"],
    estimated_duration_seconds := 30, idempotency_key := "1" }

/-- Id supply for the acyclic witness. -/
def wGen : Nat → String :=
  fun n =>
    if n = 0 then "a" else if n = 1 then "ka"
    else if n = 2 then "b" else "kb"

/-- A network resource with no dependencies. -/
def wResA : ResourceSpec :=
  { resource_type := .network, provider := .aws, region := "r", name := "na" }

/-- A compute resource depending on the network resource. -/
def wResB : ResourceSpec :=
  { resource_type := .compute, provider := .aws, region := "r", name := "nb",
    dependencies := ["aws/r/network/na"] }

/-- An intent with the two resources, deliberately listed out of
priority order. -/
def wIntent : DeploymentIntent :=
  { description := "two", target_providers := [.aws],
    resources := [wResB, wResA] }

/-- A rank function exhibiting the acyclicity of the witness plan. -/
def wRank : String → Nat :=
  fun s => if s = "b" then 1 else 0

/-- The plan the planner produces for `wIntent`. -/
def wPlan : ExecutionPlan := generate_plan wGen "p" wIntent

/-!  ## Drift model (`domain/models/drift.py`) and services
(`domain/services/deployment_service.py`, `domain/services/drift_service.py`).

The repositories are string-keyed stores with dict semantics; the
in-memory and SQL repositories both implement get-by-id/save/update.
`storeSet` models dict assignment up to iteration order (no embedded
consumer depends on the order: the only store iteration embedded,
`list_by_deployment`, feeds order-insensitive all/any folds). -/

/-- Dict lookup: first matching key. -/
def storeGet {α : Type} (m : List (String × α)) (k : String) : Option α :=
  (m.find? (fun kv => kv.1 == k)).map (fun kv => kv.2)

/-- Dict assignment: the new binding shadows and replaces any old one. -/
def storeSet {α : Type} (m : List (String × α)) (k : String) (v : α) :
    List (String × α) :=
  (k, v) :: m.filter (fun kv => kv.1 != k)

/-- `DriftSeverity` from `domain/models/drift.py`. -/
inductive DriftSeverity where
  | low
  | medium
  | high
  | critical
deriving DecidableEq, Repr

/-- The `.value` of a `DriftSeverity` enum member. -/
def DriftSeverity.value : DriftSeverity → String
  | .low => "low"
  | .medium => "medium"
  | .high => "high"
  | .critical => "critical"

/-- `DriftType` from `domain/models/drift.py`. -/
inductive DriftType where
  | propertyChanged
  | resourceAdded
  | resourceRemoved
  | stateMismatch
  | tagMismatch
deriving DecidableEq, Repr

/-- `DriftItem` from `domain/models/drift.py`. -/
structure DriftItem where
  drift_type : DriftType
  resource_identifier : String
  property_path : String := ""
  expected_value : String := ""
  actual_value : String := ""
  severity : DriftSeverity := .medium
deriving DecidableEq, Repr

/-- `DriftReport` aggregate from `domain/models/drift.py`. -/
structure DriftReport where
  id : String
  deployment_id : String
  scan_type : String := "scheduled"
  items : List DriftItem := []
  summary : String := ""
  auto_remediate : Bool := false
  remediation_deployment_id : Option String := none
deriving DecidableEq, Repr

/-- `DriftReport.has_drift`. -/
def DriftReport.has_drift (r : DriftReport) : Bool :=
  r.items.length > 0

/-- `DriftReport.max_severity`: LOW on an empty report, else the first
severity of CRITICAL, HIGH, MEDIUM, LOW present among the items. -/
def DriftReport.max_severity (r : DriftReport) : DriftSeverity :=
  if r.items.isEmpty then .low
  else if r.items.any (fun i => i.severity == DriftSeverity.critical) then .critical
  else if r.items.any (fun i => i.severity == DriftSeverity.high) then .high
  else if r.items.any (fun i => i.severity == DriftSeverity.medium) then .medium
  else if r.items.any (fun i => i.severity == DriftSeverity.low) then .low
  else .low

/-- The store-backed state seen by `DeploymentDomainService`: the two
repositories and the sink of published domain events.  The service
loads a value, mutates it and persists it by an explicit update. -/
structure ServiceState where
  deployments : List (String × Deployment)
  tasks : List (String × Task)
  published : List DomainEvent
deriving DecidableEq, Repr

/-- `_publish_events`: collect the aggregate buffer and forward every
event to the publisher (the cleared local buffer is discarded with the
local object). -/
def publishEvents (st : ServiceState) (d : Deployment) : ServiceState :=
  { st with published := st.published ++ d.events }

/-- The `Task(...)` constructed per step in `execute_deployment`
(freshly PENDING; the id supply replaces `generate_id()`). -/
def mkTaskForStep (tid did : String) (step : ExecutionStep) : Task :=
  { id := tid, deployment_id := did, step_id := step.step_id,
    name := step.name, description := step.description,
    provider := step.provider, terraform_action := step.terraform_action,
    idempotency_key := step.idempotency_key,
    timeout_seconds := step.estimated_duration_seconds * 2,
    input_data := some (step.resource_spec, step.dependencies) }

/-- The per-step loop of `execute_deployment`: build the task, enqueue
it, save it, collect it. -/
def executeLoop (gen : Nat → String) (did : String) :
    List ExecutionStep → Nat → ServiceState →
    Except (DomainError × ServiceState) (List Task × ServiceState)
  | [], _, st => .ok ([], st)
  | step :: rest, i, st =>
      let t0 := mkTaskForStep (gen i) did step
      match t0.enqueue with
      | .error (e, _) => .error (e, st)
      | .ok t1 =>
          let st2 : ServiceState := { st with tasks := storeSet st.tasks t1.id t1 }
          match executeLoop gen did rest (i + 1) st2 with
          | .error es => .error es
          | .ok (ts, st3) => .ok (t1 :: ts, st3)

/-- `DeploymentDomainService.execute_deployment`: load (else not
found), require a plan (else plan missing), `start_execution`, persist,
materialize and enqueue one task per step, publish events, return the
tasks. -/
def execute_deployment (gen : Nat → String) (st : ServiceState)
    (deployment_id : String) :
    Except (DomainError × ServiceState) (List Task × ServiceState) :=
  match storeGet st.deployments deployment_id with
  | none => .error (.deploymentNotFound, st)
  | some d =>
      match d.plan with
      | none => .error (.deploymentPlanMissing, st)
      | some plan =>
          match d.start_execution with
          | .error (e, _) => .error (e, st)
          | .ok d2 =>
              let st2 : ServiceState :=
                { st with deployments := storeSet st.deployments d2.id d2 }
              match executeLoop gen deployment_id plan.steps 0 st2 with
              | .error es => .error es
              | .ok (ts, st3) => .ok (ts, publishEvents st3 d2)

/-- A plain rendering of a Python dict for `str(output)` (the exact
Python repr formatting is immaterial to every claim; only emptiness
is ever observable). -/
def dictToString (d : List (String × String)) : String :=
  String.intercalate ", " (d.map (fun kv => kv.1 ++ ": " ++ kv.2))

/-- `str(output) if output else ""`. -/
def strOfOutput (output : Option (List (String × String))) : String :=
  match output with
  | some o => if o.isEmpty then "" else dictToString o
  | none => ""

/-- `TaskRepository.list_by_deployment` over the store. -/
def tasksByDeployment (tasks : List (String × Task)) (did : String) : List Task :=
  (tasks.map (fun kv => kv.2)).filter (fun t => t.deployment_id == did)

/-- `DeploymentDomainService.handle_task_completion`: unknown task id
returns silently; succeed/fail and persist the task; unknown
deployment returns silently; append the step result; inspect all the
deployment tasks and advance to VERIFYING or ROLLING_BACK; persist
and publish. -/
def handle_task_completion (st : ServiceState) (task_id : String)
    (success : Bool) (output : Option (List (String × String)))
    (error : String) :
    Except (DomainError × ServiceState) ServiceState :=
  match storeGet st.tasks task_id with
  | none => .ok st
  | some task =>
      match (if success then task.succeed output else task.fail error) with
      | .error (e, _) => .error (e, st)
      | .ok task2 =>
          let st2 : ServiceState :=
            { st with tasks := storeSet st.tasks task2.id task2 }
          match storeGet st2.deployments task2.deployment_id with
          | none => .ok st2
          | some d =>
              let step_result : StepResult :=
                { step_id := task2.step_id, success := success,
                  output := strOfOutput output, error_message := error,
                  idempotency_key := task2.idempotency_key,
                  attempt_number := task2.attempt_number }
              match d.record_step_result step_result with
              | .error (e, _) => .error (e, st2)
              | .ok d2 =>
                  let all_tasks := tasksByDeployment st2.tasks task2.deployment_id
                  let all_complete := all_tasks.all
                    (fun t => t.is_terminal || t.status == TaskStatus.succeeded)
                  let any_failed := all_tasks.any
                    (fun t => t.status == TaskStatus.failed)
                  match (if all_complete && !any_failed then d2.start_verification
                    else if any_failed && d2.intent.rollback_on_failure then
                      d2.start_rollback
                    else .ok d2) with
                  | .error (e, _) => .error (e, st2)
                  | .ok d3 =>
                      let st3 : ServiceState :=
                        { st2 with deployments := storeSet st2.deployments d3.id d3 }
                      .ok (publishEvents st3 d3)

/-- The store-backed state seen by `DriftDomainService`, with its own
published-event sink (`drift.detected` carries a plain payload). -/
structure DriftState where
  deployments : List (String × Deployment)
  reports : List (String × DriftReport)
  published : List (String × Nat × String)
deriving DecidableEq, Repr

/-- `_build_expected_state`: resource identifier → resource spec, over
the plan steps (dict built in step order, later entries overwrite). -/
def build_expected_state (d : Deployment) : List (String × ResourceSpec) :=
  match d.plan with
  | none => []
  | some plan =>
      plan.steps.foldl
        (fun st step =>
          storeSet st step.resource_spec.resource_identifier step.resource_spec)
        []

/-- `DriftDomainService.scan_deployment`: load (else `DriftScanError`),
detect against the expected state, persist the report, publish
`drift.detected` with payload (deployment_id, drift_count,
max_severity) exactly when the report has drift, return the report.
The detector port is an explicit function parameter. -/
def scan_deployment
    (detector : String → List (String × ResourceSpec) → DriftReport)
    (st : DriftState) (deployment_id : String) :
    Except (DomainError × DriftState) (DriftReport × DriftState) :=
  match storeGet st.deployments deployment_id with
  | none => .error (.driftScanError, st)
  | some d =>
      let report := detector deployment_id (build_expected_state d)
      let st2 : DriftState :=
        { st with reports := storeSet st.reports report.id report }
      if report.has_drift then
        .ok (report, { st2 with published := st2.published ++
          [(deployment_id, report.items.length, report.max_severity.value)] })
      else
        .ok (report, st2)

/-- A deployment with a plan already EXECUTING (as left behind by a
first `execute_deployment` call). -/
def executingDep : Deployment :=
  { sampleDep with
    status := .executing, plan := some samplePlan }

/-- A store holding `executingDep`. -/
def execState : ServiceState :=
  { deployments := [("d1", executingDep)], tasks := [], published := [] }

/-- A fixed task-id supply. -/
def tGen : Nat → String := fun n => if n = 0 then "t1" else "t2"

/-- A deployment in PLANNED status holding the sample plan, stored for
the C5 witness. -/
def plannedDep : Deployment :=
  { sampleDep with
    status := .planned, plan := some samplePlan }

/-- A store holding `plannedDep`. -/
def plannedState : ServiceState :=
  { deployments := [("d1", plannedDep)], tasks := [], published := [] }

/-- The empty service state. -/
def emptyState : ServiceState :=
  { deployments := [], tasks := [], published := [] }

/-- A RUNNING task whose deployment id resolves to nothing. -/
def orphanTask : Task :=
  { id := "t1", deployment_id := "dX", step_id := "s1",
    name := "create-network-aws", status := .running,
    idempotency_key := "k1" }

/-- A store holding only `orphanTask`. -/
def orphanState : ServiceState :=
  { deployments := [], tasks := [("t1", orphanTask)], published := [] }

/-- A detector reporting one HIGH-severity drift item, and one
reporting none. -/
def hiDetector : String → List (String × ResourceSpec) → DriftReport :=
  fun did _ =>
    { id := "r1", deployment_id := did,
      items := [{ drift_type := .propertyChanged,
                  resource_identifier := "aws/us-east-1/network/staging-vpc",
                  severity := .high }] }

/-- A drift store holding the sample deployment. -/
def driftState : DriftState :=
  { deployments := [("d1", sampleDep)], reports := [], published := [] }

/-!  # Theorems  -/

@[simp]

theorem Task.withOutput_status (t : Task) (o : Option (List (String × String))) :
    (t.withOutput o).status = t.status := by
  unfold Task.withOutput
  cases o with
  | none => rfl
  | some l => by_cases h : l.isEmpty <;> simp [h]

@[simp]

theorem Task.withOutput_attempt_number (t : Task) (o : Option (List (String × String))) :
    (t.withOutput o).attempt_number = t.attempt_number := by
  unfold Task.withOutput
  cases o with
  | none => rfl
  | some l => by_cases h : l.isEmpty <;> simp [h]

@[simp]

theorem Task.withOutput_max_attempts (t : Task) (o : Option (List (String × String))) :
    (t.withOutput o).max_attempts = t.max_attempts := by
  unfold Task.withOutput
  cases o with
  | none => rfl
  | some l => by_cases h : l.isEmpty <;> simp [h]

/-!  ## C1: transition validity, post-status and failure atomicity  -/

theorem transition_to_of_mem {d : Deployment} {s : DeploymentStatus}
    (h : s ∈ validTransitions d.status) :
    d.transition_to s = Except.ok (Deployment.touch { d with status := s }) := by
  simp [Deployment.transition_to, h]

theorem transition_to_of_not_mem {d : Deployment} {s : DeploymentStatus}
    (h : s ∉ validTransitions d.status) :
    d.transition_to s = Except.error (DomainError.invalidStateTransition, d) := by
  simp [Deployment.transition_to, h]

set_option maxHeartbeats 2000000 in

/-- **C1 (amended).**  `_transition_to` succeeds exactly when the target
status is in the allowed-transition set of the current status; on
success it assigns the target and touches the aggregate, on failure it
raises `InvalidStateTransition` leaving the aggregate unchanged.  Every
lifecycle call that fails raises `InvalidStateTransition` with the
status unchanged, and every lifecycle call that succeeds leaves the
aggregate in the call's final status (the attempted target, except that
`set_plan` continues on to APPROVED or AWAITING_APPROVAL); a lifecycle
call succeeds exactly when its attempted target is allowed from the
current status.  (The original claim's stronger promise, that a failing
call leaves the deployment *entirely* unchanged including `plan` and
`error_message`, is refuted by the counterexample: `set_plan` and
`fail` assign those fields before validating.) -/
theorem spec_C1_amended (d : Deployment) (c : LifecycleCall) (s : DeploymentStatus) :
    (d.transition_to s = Except.ok (Deployment.touch { d with status := s }) ↔
      s ∈ validTransitions d.status) ∧
    (s ∉ validTransitions d.status →
      d.transition_to s = Except.error (DomainError.invalidStateTransition, d)) ∧
    (∀ d', c.apply d = Except.ok d' → d'.status = c.finalStatus d) ∧
    (∀ e d', c.apply d = Except.error (e, d') →
      e = DomainError.invalidStateTransition ∧ d'.status = d.status) ∧
    ((∃ d', c.apply d = Except.ok d') ↔ c.target ∈ validTransitions d.status) := by
  refine ⟨?_, transition_to_of_not_mem, ?_, ?_, ?_⟩
  · constructor
    · intro h
      by_cases hs : s ∈ validTransitions d.status
      · exact hs
      · simp [Deployment.transition_to, hs] at h
    · intro h
      simp [Deployment.transition_to, h]
  · intro d' h
    by_cases hm : c.target ∈ validTransitions d.status <;>
      by_cases ha : d.intent.auto_approve = true <;>
      cases c <;>
      simp_all [LifecycleCall.apply, LifecycleCall.target, LifecycleCall.finalStatus,
        Deployment.start_planning, Deployment.set_plan, Deployment.approve,
        Deployment.start_execution, Deployment.start_verification,
        Deployment.complete, Deployment.fail, Deployment.start_rollback,
        Deployment.complete_rollback, Deployment.cancel,
        Deployment.transition_to, Deployment.add_event, Deployment.touch,
        validTransitions, Bind.bind, Except.bind, Pure.pure, Except.pure] <;>
      (try (subst h; rfl))
  · intro e d' h
    by_cases hm : c.target ∈ validTransitions d.status <;>
      by_cases ha : d.intent.auto_approve = true <;>
      cases c <;>
      simp_all [LifecycleCall.apply, LifecycleCall.target,
        Deployment.start_planning, Deployment.set_plan, Deployment.approve,
        Deployment.start_execution, Deployment.start_verification,
        Deployment.complete, Deployment.fail, Deployment.start_rollback,
        Deployment.complete_rollback, Deployment.cancel,
        Deployment.transition_to, Deployment.add_event, Deployment.touch,
        validTransitions, Bind.bind, Except.bind, Pure.pure, Except.pure] <;>
      (try (obtain ⟨he, hd⟩ := h; subst hd; rfl))
  · by_cases hm : c.target ∈ validTransitions d.status <;>
      by_cases ha : d.intent.auto_approve = true <;>
      cases c <;>
      simp_all [LifecycleCall.apply, LifecycleCall.target,
        Deployment.start_planning, Deployment.set_plan, Deployment.approve,
        Deployment.start_execution, Deployment.start_verification,
        Deployment.complete, Deployment.fail, Deployment.start_rollback,
        Deployment.complete_rollback, Deployment.cancel,
        Deployment.transition_to, Deployment.add_event, Deployment.touch,
        validTransitions, Bind.bind, Except.bind, Pure.pure, Except.pure]

/-- **C1 counterexample.**  `set_plan` on a PENDING deployment raises
`InvalidStateTransition` (PLANNED is not reachable from PENDING), yet
the returned aggregate has the plan attached: the deployment is *not*
left entirely unchanged on failure. -/
theorem spec_C1_counterexample :
    sampleDep.set_plan samplePlan =
      Except.error (DomainError.invalidStateTransition,
        { sampleDep with plan := some samplePlan }) ∧
    ({ sampleDep with plan := some samplePlan } : Deployment) ≠ sampleDep := by
  constructor
  · rfl
  · decide

/-- **C1 witness.**  The amended theorem applied at concrete inputs:
from PENDING, a transition to EXECUTING is rejected leaving the
aggregate unchanged, and `start_planning` succeeds. -/
theorem spec_C1_amended_witness :
    sampleDep.transition_to .executing =
      Except.error (DomainError.invalidStateTransition, sampleDep) ∧
    (∃ d', LifecycleCall.startPlanning.apply sampleDep = Except.ok d') :=
  ⟨(spec_C1_amended sampleDep .startPlanning .executing).2.1 (by decide),
   (spec_C1_amended sampleDep .startPlanning .planning).2.2.2.2.mpr (by decide)⟩

/-!  ## C2: plan attachment and the auto-approve policy  -/

/-- **C2 (confirmed).**  From PLANNING, `set_plan` always succeeds: it
records the plan and emits `deployment.plan_generated`; with
`auto_approve` it ends in APPROVED having also emitted
`deployment.approved` with `approved_by = "auto"`, otherwise it ends in
AWAITING_APPROVAL; the final status is APPROVED iff `auto_approve`. -/
theorem spec_C2 (d : Deployment) (p : ExecutionPlan)
    (h : d.status = DeploymentStatus.planning) :
    (∃ d', d.set_plan p = Except.ok d') ∧
    (depAfter (d.set_plan p)).plan = some p ∧
    ((depAfter (d.set_plan p)).status = DeploymentStatus.approved ↔
      d.intent.auto_approve = true) ∧
    (d.intent.auto_approve = true →
      (depAfter (d.set_plan p)).status = DeploymentStatus.approved ∧
      (depAfter (d.set_plan p)).events = d.events ++
        [DomainEvent.planGenerated d.id p.plan_id p.step_count d.id,
         DomainEvent.approvedEvent d.id "auto" d.id]) ∧
    (d.intent.auto_approve = false →
      (depAfter (d.set_plan p)).status = DeploymentStatus.awaitingApproval ∧
      (depAfter (d.set_plan p)).events = d.events ++
        [DomainEvent.planGenerated d.id p.plan_id p.step_count d.id]) := by
  by_cases ha : d.intent.auto_approve = true <;>
    refine ⟨?_, ?_, ?_, ?_, ?_⟩ <;>
    simp_all [Deployment.set_plan, Deployment.approve, Deployment.transition_to,
      Deployment.add_event, Deployment.touch, depAfter, validTransitions, h,
      Bind.bind, Except.bind, Pure.pure, Except.pure]

/-- **C2 witness.**  `spec_C2` applied to a concrete deployment in
PLANNING, in both the manual and the auto-approve variant. -/
theorem spec_C2_witness :
    planningDep.status = DeploymentStatus.planning ∧
    (depAfter (planningDep.set_plan samplePlan)).status =
      DeploymentStatus.awaitingApproval ∧
    (depAfter (planningAutoDep.set_plan samplePlan)).status =
      DeploymentStatus.approved :=
  ⟨rfl,
   ((spec_C2 planningDep samplePlan rfl).2.2.2.2 rfl).1,
   ((spec_C2 planningAutoDep samplePlan rfl).2.2.2.1 rfl).1⟩

/-!  ## C3: task retry budget and retry semantics  -/

/-- **C3 (confirmed).**  Every task operation preserves
`attempt_number ≤ max_attempts`; `retry()` raises `MaxRetriesExceeded`
exactly when `attempt_number ≥ max_attempts` and then leaves the task
unchanged; otherwise, on a FAILED or TIMED_OUT task, it increments
`attempt_number`, clears `worker_id` and `error_message`, and leaves
the task QUEUED. -/
theorem spec_C3 (t : Task) (c : TaskCall) :
    (t.attempt_number ≤ t.max_attempts →
      (taskAfter (c.apply t)).attempt_number ≤
        (taskAfter (c.apply t)).max_attempts) ∧
    ((∃ t', t.retry = Except.error (DomainError.maxRetriesExceeded, t')) ↔
      t.attempt_number ≥ t.max_attempts) ∧
    (t.attempt_number ≥ t.max_attempts →
      t.retry = Except.error (DomainError.maxRetriesExceeded, t)) ∧
    (t.attempt_number < t.max_attempts →
      (t.status = TaskStatus.failed ∨ t.status = TaskStatus.timedOut) →
      ∃ t', t.retry = Except.ok t' ∧
        t'.attempt_number = t.attempt_number + 1 ∧
        t'.worker_id = none ∧ t'.error_message = "" ∧
        t'.status = TaskStatus.queued) := by
  refine ⟨?_, ?_, ?_, ?_⟩
  · intro h
    cases c with
    | retryCall =>
        by_cases hr : t.attempt_number ≥ t.max_attempts
        · simpa [TaskCall.apply, Task.retry, hr, taskAfter] using h
        · by_cases hs : TaskStatus.retrying ∈ taskValidTransitions t.status
          · simp only [TaskCall.apply, Task.retry, if_neg hr, Task.transition_to,
              if_pos hs]
            simp [Task.touch, taskValidTransitions, taskAfter,
              Bind.bind, Except.bind, Pure.pure, Except.pure]
            omega
          · simp only [TaskCall.apply, Task.retry, if_neg hr, Task.transition_to,
              if_neg hs]
            simpa [taskAfter, Bind.bind, Except.bind] using h
    | enqueueCall =>
        by_cases hs : TaskStatus.queued ∈ taskValidTransitions t.status <;>
          simpa [TaskCall.apply, Task.enqueue, Task.transition_to, Task.touch,
            hs, taskAfter, Bind.bind, Except.bind, Pure.pure, Except.pure] using h
    | acquireCall w =>
        by_cases hs : TaskStatus.acquired ∈ taskValidTransitions t.status <;>
          simpa [TaskCall.apply, Task.acquire, Task.transition_to, Task.touch,
            hs, taskAfter, Bind.bind, Except.bind, Pure.pure, Except.pure] using h
    | startCall =>
        by_cases hs : TaskStatus.running ∈ taskValidTransitions t.status <;>
          simpa [TaskCall.apply, Task.start, Task.transition_to, Task.touch,
            hs, taskAfter, Bind.bind, Except.bind, Pure.pure, Except.pure] using h
    | succeedCall o =>
        by_cases hs : TaskStatus.succeeded ∈ taskValidTransitions t.status <;>
          simpa [TaskCall.apply, Task.succeed, Task.transition_to, Task.touch,
            hs, taskAfter, Bind.bind, Except.bind, Pure.pure, Except.pure] using h
    | failCall m =>
        by_cases hs : TaskStatus.failed ∈ taskValidTransitions t.status <;>
          simpa [TaskCall.apply, Task.fail, Task.transition_to, Task.touch,
            hs, taskAfter, Bind.bind, Except.bind, Pure.pure, Except.pure] using h
    | timeoutCall =>
        by_cases hs : TaskStatus.timedOut ∈ taskValidTransitions t.status <;>
          simpa [TaskCall.apply, Task.timeout, Task.transition_to, Task.touch,
            hs, taskAfter, Bind.bind, Except.bind, Pure.pure, Except.pure] using h
    | cancelCall =>
        by_cases hs : TaskStatus.cancelled ∈ taskValidTransitions t.status <;>
          simpa [TaskCall.apply, Task.cancel, Task.transition_to, Task.touch,
            hs, taskAfter, Bind.bind, Except.bind, Pure.pure, Except.pure] using h
  · constructor
    · rintro ⟨t', ht⟩
      by_cases hr : t.attempt_number ≥ t.max_attempts
      · exact hr
      · by_cases hs : TaskStatus.retrying ∈ taskValidTransitions t.status <;>
          simp_all [Task.retry, Task.transition_to, Task.touch,
            taskValidTransitions, Bind.bind, Except.bind, Pure.pure,
            Except.pure]
    · intro hr
      exact ⟨t, by simp [Task.retry, hr]⟩
  · intro hr
    simp [Task.retry, hr]
  · intro hr hst
    have hr' : ¬ t.attempt_number ≥ t.max_attempts := not_le.mpr hr
    rcases hst with hst | hst <;>
      simp [Task.retry, hr', Task.transition_to, Task.touch, hst,
        taskValidTransitions, Bind.bind, Except.bind, Pure.pure, Except.pure]

/-- **C3 witness.**  `spec_C3` applied to a concrete FAILED task: with
budget left, `retry` re-queues it with the attempt counter bumped; at
the budget, `retry` raises `MaxRetriesExceeded` leaving it unchanged. -/
theorem spec_C3_witness :
    (failedTask.attempt_number ≤ failedTask.max_attempts ∧
      ∃ t', failedTask.retry = Except.ok t' ∧
        t'.attempt_number = failedTask.attempt_number + 1 ∧
        t'.worker_id = none ∧ t'.error_message = "" ∧
        t'.status = TaskStatus.queued) ∧
    exhaustedTask.retry =
      Except.error (DomainError.maxRetriesExceeded, exhaustedTask) :=
  ⟨⟨by decide, (spec_C3 failedTask .retryCall).2.2.2 (by decide) (Or.inl rfl)⟩,
   (spec_C3 exhaustedTask .retryCall).2.2.1 (by decide)⟩

/-!  ## C6: step_results growth discipline  -/

/-- **C6 (amended).**  `step_results` is append-only: every lifecycle
call leaves it unchanged and `record_step_result` appends exactly the
new result (whether or not the call then raises), with no further
conditions — in particular the code neither bounds the list by the
plan's step count nor guards against appends in terminal statuses
(see the counterexample). -/
theorem spec_C6_amended (d : Deployment) (r : StepResult) (c : LifecycleCall) :
    (depAfter (d.record_step_result r)).step_results =
      d.step_results ++ [r] ∧
    (depAfter (c.apply d)).step_results = d.step_results := by
  constructor
  · by_cases hc : (!r.success && d.intent.rollback_on_failure) = true <;>
      by_cases hm : DeploymentStatus.failed ∈ validTransitions d.status <;>
      simp [Deployment.record_step_result, Deployment.fail,
        Deployment.transition_to, Deployment.touch, Deployment.add_event,
        depAfter, hc, hm, Bind.bind, Except.bind, Pure.pure, Except.pure]
  · by_cases hm : c.target ∈ validTransitions d.status <;>
      by_cases ha : d.intent.auto_approve = true <;>
      cases c <;>
      simp_all [LifecycleCall.apply, LifecycleCall.target,
        Deployment.start_planning, Deployment.set_plan, Deployment.approve,
        Deployment.start_execution, Deployment.start_verification,
        Deployment.complete, Deployment.fail, Deployment.start_rollback,
        Deployment.complete_rollback, Deployment.cancel,
        Deployment.transition_to, Deployment.add_event, Deployment.touch,
        depAfter, validTransitions, Bind.bind, Except.bind, Pure.pure,
        Except.pure]

/-- **C6 counterexample.**  On a terminal (COMPLETED) deployment,
`record_step_result` still returns normally and appends, growing
`step_results` to 2 entries against a 1-step plan: the claimed bound
by the plan's step count and the claimed terminal-status freeze both
fail. -/
theorem spec_C6_counterexample :
    terminalDep.is_terminal = true ∧
    terminalDep.plan = some samplePlan ∧
    samplePlan.steps.length = 1 ∧
    (terminalDep.record_step_result okResult).isOk = true ∧
    (depAfter (terminalDep.record_step_result okResult)).step_results.length = 2 := by
  refine ⟨by decide, rfl, rfl, by decide, by decide⟩

/-!  ## C10: progress percentage  -/

/-- **C10 (confirmed).**  `progress_percentage` is 0 when the plan is
absent or has no steps, and otherwise is exactly
`step_results.length / plan.steps.length × 100`, unclamped: with a
non-empty plan it strictly exceeds 100 whenever more step results than
plan steps have been recorded.  (Stated over exact rationals in place
of Python floats.) -/
theorem spec_C10 (d : Deployment) (p : ExecutionPlan) :
    (d.plan = none → d.progress_percentage = 0) ∧
    (d.plan = some p → p.steps.isEmpty = true → d.progress_percentage = 0) ∧
    (d.plan = some p → p.steps.isEmpty = false →
      d.progress_percentage =
        ((d.step_results.length : ℚ) / (p.steps.length : ℚ)) * 100) ∧
    (d.plan = some p → p.steps.isEmpty = false →
      d.step_results.length > p.steps.length →
      d.progress_percentage > 100) := by
  refine ⟨?_, ?_, ?_, ?_⟩
  · intro h
    simp [Deployment.progress_percentage, h]
  · intro h he
    simp [Deployment.progress_percentage, h, he]
  · intro h he
    simp [Deployment.progress_percentage, h, he]
  · intro h he hgt
    have hpos : 0 < p.steps.length := by
      cases hsteps : p.steps with
      | nil => rw [hsteps] at he; simp at he
      | cons a l => simp [hsteps]
    have hb : (0 : ℚ) < (p.steps.length : ℚ) := by exact_mod_cast hpos
    have hdiv : (1 : ℚ) < (d.step_results.length : ℚ) / (p.steps.length : ℚ) := by
      rw [lt_div_iff₀ hb, one_mul]
      exact_mod_cast hgt
    have h100 : (100 : ℚ) < ((d.step_results.length : ℚ) / (p.steps.length : ℚ)) * 100 := by
      have := (mul_lt_mul_right (by norm_num : (0 : ℚ) < 100)).mpr hdiv
      simpa using this
    simp only [Deployment.progress_percentage, h, he]
    simpa using h100

/-- **C10 witness.**  `spec_C10` applied to a deployment holding two
results against a one-step plan: the progress strictly exceeds 100. -/
theorem spec_C10_witness :
    overDep.plan = some samplePlan ∧
    overDep.step_results.length > samplePlan.steps.length ∧
    overDep.progress_percentage > 100 :=
  ⟨rfl, by decide,
   (spec_C10 overDep samplePlan).2.2.2 rfl (by decide) (by decide)⟩

/-!  ## C4 groundwork: the wave loop terminates, partitions, and
respects dependencies on rankable (acyclic) inputs  -/

theorem length_foldl_erase_le {α : Type} [DecidableEq α]
    (ws l : List α) : (ws.foldl List.erase l).length ≤ l.length := by
  induction ws generalizing l with
  | nil => simp
  | cons w ws ih =>
      calc ((w :: ws).foldl List.erase l).length
          = (ws.foldl List.erase (l.erase w)).length := by simp
        _ ≤ (l.erase w).length := ih (l.erase w)
        _ ≤ l.length := List.length_erase_le w l

theorem length_foldl_erase_lt {α : Type} [DecidableEq α]
    (w : α) (ws l : List α) (hw : w ∈ l) :
    ((w :: ws).foldl List.erase l).length < l.length := by
  have h1 : (l.erase w).length = l.length - 1 := List.length_erase_of_mem hw
  have h2 := length_foldl_erase_le ws (l.erase w)
  have h3 : 0 < l.length := List.length_pos_of_mem hw
  simp only [List.foldl_cons]
  omega

theorem coe_foldl_erase {α : Type} [DecidableEq α] (ws l : List α) :
    ((ws.foldl List.erase l : List α) : Multiset α) =
      (l : Multiset α) - (ws : Multiset α) := by
  rw [← List.diff_eq_foldl, Multiset.coe_sub]

theorem geoWave_ne_nil (completed : List String) (r0 : ExecutionStep)
    (rest : List ExecutionStep) : geoWave completed (r0 :: rest) ≠ [] := by
  dsimp only [geoWave]
  split
  · simp
  · rename_i hne
    exact fun hcontra => hne (List.isEmpty_iff.mpr hcontra)

theorem geoWave_subperm (completed : List String)
    (remaining : List ExecutionStep) :
    (geoWave completed remaining).Subperm remaining := by
  dsimp only [geoWave]
  split
  · exact (List.take_sublist 1 remaining).subperm
  · exact (List.filter_sublist remaining).subperm

theorem geoWave_foldl_length_lt (completed : List String) (r0 : ExecutionStep)
    (rest : List ExecutionStep) :
    ((geoWave completed (r0 :: rest)).foldl List.erase (r0 :: rest)).length <
      (r0 :: rest).length := by
  rcases hw : geoWave completed (r0 :: rest) with _ | ⟨w, ws⟩
  · exact absurd hw (geoWave_ne_nil completed r0 rest)
  · have hsub : (w :: ws).Subperm (r0 :: rest) := hw ▸ geoWave_subperm completed (r0 :: rest)
    exact length_foldl_erase_lt w ws (r0 :: rest) (hsub.subset (List.mem_cons_self w ws))

theorem coe_geoWave_add_foldl (completed : List String) (r0 : ExecutionStep)
    (rest : List ExecutionStep) :
    ((geoWave completed (r0 :: rest) : List ExecutionStep) : Multiset ExecutionStep) +
      (((geoWave completed (r0 :: rest)).foldl List.erase (r0 :: rest) : List ExecutionStep) :
        Multiset ExecutionStep) =
      ((r0 :: rest : List ExecutionStep) : Multiset ExecutionStep) := by
  rw [coe_foldl_erase]
  have hle : ((geoWave completed (r0 :: rest) : List ExecutionStep) : Multiset ExecutionStep) ≤
      ((r0 :: rest : List ExecutionStep) : Multiset ExecutionStep) :=
    Multiset.coe_le.mpr (geoWave_subperm completed (r0 :: rest))
  rw [add_comm]
  exact tsub_add_cancel_of_le hle

theorem geoLoop_flatten_perm :
    ∀ (fuel : Nat) (completed : List String) (remaining : List ExecutionStep),
      remaining.length ≤ fuel →
      (geoLoop fuel completed remaining).flatten.Perm remaining := by
  intro fuel
  induction fuel with
  | zero =>
      intro c r h
      have hr : r = [] := List.eq_nil_of_length_eq_zero (Nat.le_zero.mp h)
      subst hr
      simp [geoLoop]
  | succ n ih =>
      intro c r h
      rcases r with _ | ⟨r0, rest⟩
      · simp [geoLoop]
      · have hlt := geoWave_foldl_length_lt c r0 rest
        have hfuel : ((geoWave c (r0 :: rest)).foldl List.erase (r0 :: rest)).length ≤ n := by
          have := h
          simp only [List.length_cons] at this hlt ⊢
          omega
        have hrec := ih (c ++ (geoWave c (r0 :: rest)).map (fun s => s.step_id))
          ((geoWave c (r0 :: rest)).foldl List.erase (r0 :: rest)) hfuel
        rw [← Multiset.coe_eq_coe] at hrec ⊢
        simp only [geoLoop, List.flatten_cons, ← Multiset.coe_add]
        rw [hrec, coe_geoWave_add_foldl]

theorem exists_ready (rank : String → Nat) (completed : List String)
    (remaining : List ExecutionStep)
    (H1 : ∀ s ∈ remaining, ∀ dep ∈ s.dependencies,
      dep ∈ completed ∨ dep ∈ remaining.map (fun s => s.step_id))
    (H2 : ∀ s ∈ remaining, ∀ dep ∈ s.dependencies,
      dep ∈ completed ∨ rank dep < rank s.step_id) :
    ∀ (n : Nat) (t : ExecutionStep), t ∈ remaining → rank t.step_id ≤ n →
      ∃ u ∈ remaining, ∀ dep ∈ u.dependencies, dep ∈ completed := by
  intro n
  induction n with
  | zero =>
      intro t ht hr
      by_cases hall : ∀ dep ∈ t.dependencies, dep ∈ completed
      · exact ⟨t, ht, hall⟩
      · push_neg at hall
        obtain ⟨dep, hdep, hnc⟩ := hall
        rcases H2 t ht dep hdep with hc | hlt
        · exact absurd hc hnc
        · omega
  | succ n ih =>
      intro t ht hr
      by_cases hall : ∀ dep ∈ t.dependencies, dep ∈ completed
      · exact ⟨t, ht, hall⟩
      · push_neg at hall
        obtain ⟨dep, hdep, hnc⟩ := hall
        rcases H2 t ht dep hdep with hc | hlt
        · exact absurd hc hnc
        · rcases H1 t ht dep hdep with hc | hmem
          · exact absurd hc hnc
          · obtain ⟨u, hu, hid⟩ := List.mem_map.mp hmem
            exact ih u hu (by rw [hid]; omega)

theorem geoLoop_respects (rank : String → Nat) :
    ∀ (fuel : Nat) (completed : List String) (remaining : List ExecutionStep),
      remaining.length ≤ fuel →
      (∀ s ∈ remaining, ∀ dep ∈ s.dependencies,
        dep ∈ completed ∨ dep ∈ remaining.map (fun s => s.step_id)) →
      (∀ s ∈ remaining, ∀ dep ∈ s.dependencies,
        dep ∈ completed ∨ rank dep < rank s.step_id) →
      RespectFrom completed (geoLoop fuel completed remaining) := by
  intro fuel
  induction fuel with
  | zero =>
      intro c r h H1 H2 i hi
      have hr : r = [] := List.eq_nil_of_length_eq_zero (Nat.le_zero.mp h)
      subst hr
      simp [geoLoop] at hi
  | succ n ih =>
      intro c r h H1 H2
      rcases r with _ | ⟨r0, rest⟩
      · intro i hi
        simp [geoLoop] at hi
      · obtain ⟨u, hu, hud⟩ :=
          exists_ready rank c (r0 :: rest) H1 H2 (rank r0.step_id) r0
            (List.mem_cons_self r0 rest) le_rfl
        have humem : u ∈ (r0 :: rest).filter
            (fun s => s.dependencies.all (fun dep => c.contains dep)) := by
          rw [List.mem_filter]
          refine ⟨hu, ?_⟩
          rw [List.all_eq_true]
          intro dep hdep
          exact List.elem_iff.mpr (hud dep hdep)
        have hwave : geoWave c (r0 :: rest) = (r0 :: rest).filter
            (fun s => s.dependencies.all (fun dep => c.contains dep)) := by
          dsimp only [geoWave]
          rw [if_neg]
          rw [List.isEmpty_iff]
          intro hemp
          rw [hemp] at humem
          simp at humem
        have hlen : ((geoWave c (r0 :: rest)).foldl List.erase (r0 :: rest)).length ≤ n := by
          have hlt := geoWave_foldl_length_lt c r0 rest
          simp only [List.length_cons] at hlt h
          omega
        have hsplit : ∀ x : ExecutionStep, x ∈ (r0 :: rest) ↔
            x ∈ geoWave c (r0 :: rest) ∨
            x ∈ (geoWave c (r0 :: rest)).foldl List.erase (r0 :: rest) := by
          intro x
          have hco := coe_geoWave_add_foldl c r0 rest
          constructor
          · intro hx
            have hx2 : x ∈ ((r0 :: rest : List ExecutionStep) : Multiset ExecutionStep) :=
              Multiset.mem_coe.mpr hx
            rw [← hco] at hx2
            rcases Multiset.mem_add.mp hx2 with h1 | h2
            · exact Or.inl (Multiset.mem_coe.mp h1)
            · exact Or.inr (Multiset.mem_coe.mp h2)
          · intro hx
            have hx2 : x ∈ (((geoWave c (r0 :: rest) : List ExecutionStep) : Multiset ExecutionStep) +
                (((geoWave c (r0 :: rest)).foldl List.erase (r0 :: rest) : List ExecutionStep) :
                  Multiset ExecutionStep)) := by
              rcases hx with h1 | h2
              · exact Multiset.mem_add.mpr (Or.inl (Multiset.mem_coe.mpr h1))
              · exact Multiset.mem_add.mpr (Or.inr (Multiset.mem_coe.mpr h2))
            rw [hco] at hx2
            exact Multiset.mem_coe.mp hx2
        have H1rec : ∀ s ∈ (geoWave c (r0 :: rest)).foldl List.erase (r0 :: rest),
            ∀ dep ∈ s.dependencies,
              dep ∈ c ++ (geoWave c (r0 :: rest)).map (fun s => s.step_id) ∨
              dep ∈ ((geoWave c (r0 :: rest)).foldl List.erase (r0 :: rest)).map
                (fun s => s.step_id) := by
          intro s hs dep hdep
          rcases H1 s ((hsplit s).mpr (Or.inr hs)) dep hdep with hc | hmem
          · exact Or.inl (List.mem_append_left _ hc)
          · obtain ⟨v, hv, hvid⟩ := List.mem_map.mp hmem
            rcases (hsplit v).mp hv with hvw | hvr
            · exact Or.inl (List.mem_append_right _ (List.mem_map.mpr ⟨v, hvw, hvid⟩))
            · exact Or.inr (List.mem_map.mpr ⟨v, hvr, hvid⟩)
        have H2rec : ∀ s ∈ (geoWave c (r0 :: rest)).foldl List.erase (r0 :: rest),
            ∀ dep ∈ s.dependencies,
              dep ∈ c ++ (geoWave c (r0 :: rest)).map (fun s => s.step_id) ∨
              rank dep < rank s.step_id := by
          intro s hs dep hdep
          rcases H2 s ((hsplit s).mpr (Or.inr hs)) dep hdep with hc | hlt
          · exact Or.inl (List.mem_append_left _ hc)
          · exact Or.inr hlt
        have hrec := ih (c ++ (geoWave c (r0 :: rest)).map (fun s => s.step_id))
          ((geoWave c (r0 :: rest)).foldl List.erase (r0 :: rest)) hlen H1rec H2rec
        have hLoop : geoLoop (n + 1) c (r0 :: rest) =
            geoWave c (r0 :: rest) ::
              geoLoop n (c ++ (geoWave c (r0 :: rest)).map (fun s => s.step_id))
                ((geoWave c (r0 :: rest)).foldl List.erase (r0 :: rest)) := rfl
        rw [hLoop]
        intro i hi s hs dep hdep
        cases i with
        | zero =>
            have hs2 : s ∈ geoWave c (r0 :: rest) := hs
            rw [hwave] at hs2
            have hall := (List.mem_filter.mp hs2).2
            rw [List.all_eq_true] at hall
            exact Or.inl (List.elem_iff.mp (hall dep hdep))
        | succ j =>
            have hj : j < (geoLoop n (c ++ (geoWave c (r0 :: rest)).map (fun s => s.step_id))
                ((geoWave c (r0 :: rest)).foldl List.erase (r0 :: rest))).length := by
              simpa using hi
            have hs2 : s ∈ (geoLoop n (c ++ (geoWave c (r0 :: rest)).map (fun s => s.step_id))
                ((geoWave c (r0 :: rest)).foldl List.erase (r0 :: rest))).get ⟨j, hj⟩ := hs
            rcases hrec j hj s hs2 dep hdep with hc2 | hearlier
            · rcases List.mem_append.mp hc2 with hc | hw
              · exact Or.inl hc
              · refine Or.inr ?_
                rw [List.take_succ_cons, List.flatten_cons, List.map_append]
                exact List.mem_append_left _ hw
            · refine Or.inr ?_
              rw [List.take_succ_cons, List.flatten_cons, List.map_append]
              exact List.mem_append_right _ hearlier

theorem createStepsFromResourcesAux_deps (gen : Nat → String) :
    ∀ (i : Nat) (rs : List ResourceSpec),
      ∀ s ∈ createStepsFromResourcesAux gen i rs, s.dependencies = [] := by
  intro i rs
  induction rs generalizing i with
  | nil => intro s hs; simp [createStepsFromResourcesAux] at hs
  | cons r rs ih =>
      intro s hs
      simp only [createStepsFromResourcesAux, List.mem_cons] at hs
      rcases hs with hs | hs
      · subst hs; rfl
      · exact ih (i + 1) s hs

theorem createDefaultStepsAux_closed (gen : Nat → String) (env region : String) :
    ∀ (i : Nat) (ps : List CloudProviderType),
      ∀ s ∈ createDefaultStepsAux gen env region i ps,
        ∀ dep ∈ s.dependencies,
          dep ∈ (createDefaultStepsAux gen env region i ps).map (fun s => s.step_id) := by
  intro i ps
  induction ps generalizing i with
  | nil => intro s hs; simp [createDefaultStepsAux] at hs
  | cons p ps ih =>
      intro s hs dep hdep
      simp only [createDefaultStepsAux, List.mem_cons] at hs
      rcases hs with hs | hs | hs
      · subst hs; simp at hdep
      · subst hs
        simp only [List.mem_singleton] at hdep
        subst hdep
        simp [createDefaultStepsAux]
      · have := ih (i + 1) s hs dep hdep
        simp only [createDefaultStepsAux, List.map_cons, List.mem_cons]
        exact Or.inr (Or.inr this)

theorem resolve_step_step_id (steps : List ExecutionStep) (s : ExecutionStep) :
    (resolve_step steps s).step_id = s.step_id := rfl

theorem resolve_dependencies_map_id (steps : List ExecutionStep) :
    (resolve_dependencies steps).map (fun s => s.step_id) =
      steps.map (fun s => s.step_id) := by
  unfold resolve_dependencies
  rw [List.map_map]
  rfl

theorem resourceToStep_mem (steps : List ExecutionStep) (key sid : String)
    (h : resourceToStep steps key = some sid) :
    sid ∈ steps.map (fun s => s.step_id) := by
  unfold resourceToStep at h
  cases hfind : steps.reverse.find?
      (fun s => s.resource_spec.resource_identifier == key) with
  | none =>
      rw [hfind] at h
      exact absurd h (by simp)
  | some u =>
      rw [hfind] at h
      have hu : u ∈ steps.reverse := List.mem_of_find?_eq_some hfind
      rw [List.mem_reverse] at hu
      refine List.mem_map.mpr ⟨u, hu, ?_⟩
      simpa using h

theorem resolveFold_mem (steps : List ExecutionStep) :
    ∀ (ds : List String) (acc : List String) (x : String),
      x ∈ ds.foldl
        (fun acc depResource =>
          match resourceToStep steps depResource with
          | some sid =>
              if !sid.isEmpty && !acc.contains sid then acc ++ [sid] else acc
          | none => acc) acc →
      x ∈ acc ∨ ∃ key, resourceToStep steps key = some x := by
  intro ds
  induction ds with
  | nil => intro acc x hx; exact Or.inl hx
  | cons d ds ih =>
      intro acc x hx
      rw [List.foldl_cons] at hx
      rcases ih _ x hx with hx2 | hx2
      · cases hres : resourceToStep steps d with
        | none =>
            rw [hres] at hx2
            exact Or.inl hx2
        | some sid =>
            rw [hres] at hx2
            dsimp only at hx2
            by_cases hcond : (!sid.isEmpty && !acc.contains sid) = true
            · rw [if_pos hcond] at hx2
              rcases List.mem_append.mp hx2 with hx3 | hx3
              · exact Or.inl hx3
              · right
                exact ⟨d, by rw [hres, List.mem_singleton.mp hx3]⟩
            · rw [if_neg hcond] at hx2
              exact Or.inl hx2
      · exact Or.inr hx2

theorem resolve_dependencies_closed (steps : List ExecutionStep)
    (hpre : ∀ s ∈ steps, ∀ dep ∈ s.dependencies,
      dep ∈ steps.map (fun s => s.step_id)) :
    ∀ s ∈ resolve_dependencies steps, ∀ dep ∈ s.dependencies,
      dep ∈ (resolve_dependencies steps).map (fun s => s.step_id) := by
  intro s hs dep hdep
  rw [resolve_dependencies_map_id]
  obtain ⟨s0, hs0, hmap⟩ := List.mem_map.mp hs
  subst hmap
  have hdep2 : dep ∈ s0.resource_spec.dependencies.foldl
      (fun acc depResource =>
        match resourceToStep steps depResource with
        | some sid =>
            if !sid.isEmpty && !acc.contains sid then acc ++ [sid] else acc
        | none => acc) s0.dependencies := hdep
  rcases resolveFold_mem steps s0.resource_spec.dependencies s0.dependencies dep hdep2 with
    hacc | ⟨key, hkey⟩
  · exact hpre s0 hs0 dep hacc
  · exact resourceToStep_mem steps key dep hkey

theorem generate_plan_closed (gen : Nat → String) (pid : String)
    (intent : DeploymentIntent) :
    ∀ s ∈ (generate_plan gen pid intent).steps, ∀ dep ∈ s.dependencies,
      dep ∈ (generate_plan gen pid intent).steps.map (fun s => s.step_id) := by
  have hsteps : (generate_plan gen pid intent).steps =
      resolve_dependencies
        (if (create_steps_from_resources gen intent).isEmpty then
          create_default_steps gen intent
        else create_steps_from_resources gen intent) := rfl
  rw [hsteps]
  apply resolve_dependencies_closed
  split
  · exact createDefaultStepsAux_closed gen intent.environment
      (intent.target_regions.headD "us-east-1") 0 intent.target_providers
  · intro s hs dep hdep
    rw [createStepsFromResourcesAux_deps gen 0 _ s hs] at hdep
    simp at hdep

/-- **C4 (amended).**  For every plan the planner produces,
`get_execution_order` partitions the steps: the concatenation of the
waves is a permutation of the plan's steps, so every step lands in
exactly one wave.  Moreover, whenever the plan's step-dependency
relation is acyclic — witnessed by a rank function on step ids under
which every dependency ranks strictly below its dependent — every
step's dependencies are ids of steps placed in strictly earlier waves.
(Unconditionally the original claim fails: a cyclic resource
dependency in the intent survives into the plan, the wave loop breaks
the deadlock by force-scheduling the first remaining step, and that
step precedes its dependency; see the counterexample.) -/
theorem spec_C4_amended (gen : Nat → String) (pid : String)
    (intent : DeploymentIntent) (rank : String → Nat) :
    ((generate_plan gen pid intent).get_execution_order.flatten.Perm
      (generate_plan gen pid intent).steps) ∧
    ((∀ s ∈ (generate_plan gen pid intent).steps, ∀ dep ∈ s.dependencies,
        rank dep < rank s.step_id) →
      WavesRespectDeps (generate_plan gen pid intent).get_execution_order) := by
  constructor
  · exact geoLoop_flatten_perm _ [] _ le_rfl
  · intro hrank
    have hclosed := generate_plan_closed gen pid intent
    exact geoLoop_respects rank _ [] _ le_rfl
      (fun s hs dep hdep => Or.inr (hclosed s hs dep hdep))
      (fun s hs dep hdep => Or.inr (hrank s hs dep hdep))

/-- **C4 counterexample.**  The planner happily emits a plan whose one
step depends on itself (from a self-referential resource dependency);
`get_execution_order` force-schedules it into the only wave, so its
dependency is not satisfied by any earlier wave. -/
theorem spec_C4_counterexample :
    cycPlan.steps = [cycStep] ∧
    cycPlan.get_execution_order = [[cycStep]] ∧
    ¬ WavesRespectDeps cycPlan.get_execution_order := by
  have hsteps : cycPlan.steps = [cycStep] := by decide
  have he : cycPlan.get_execution_order = [[cycStep]] := by decide
  refine ⟨hsteps, he, ?_⟩
  intro hresp
  have hresp2 : RespectFrom [] [[cycStep]] := by
    rw [← he]
    exact hresp
  have h0 := hresp2 0 (by decide) cycStep (by decide) "0" (by decide)
  simp at h0

/-- **C4 witness.**  The amended theorem applied to a concrete
two-resource intent whose dependency graph is acyclic: the wave order
partitions the steps and respects dependencies. -/
theorem spec_C4_amended_witness :
    (∀ s ∈ wPlan.steps, ∀ dep ∈ s.dependencies, wRank dep < wRank s.step_id) ∧
    WavesRespectDeps wPlan.get_execution_order ∧
    wPlan.get_execution_order.flatten.Perm wPlan.steps :=
  ⟨by decide, (spec_C4_amended wGen "p" wIntent wRank).2 (by decide),
   (spec_C4_amended wGen "p" wIntent wRank).1⟩

/-!  ## C5, C7, C8: service-level behaviour  -/

theorem storeGet_storeSet_self {α : Type} (m : List (String × α))
    (k : String) (v : α) : storeGet (storeSet m k v) k = some v := by
  simp [storeGet, storeSet]

theorem executeLoop_ok (gen : Nat → String) (did : String) :
    ∀ (steps : List ExecutionStep) (i : Nat) (st : ServiceState),
      ∃ ts st3,
        executeLoop gen did steps i st = Except.ok (ts, st3) ∧
        st3.deployments = st.deployments ∧
        st3.published = st.published ∧
        List.Forall₂ (fun (t : Task) (s : ExecutionStep) =>
          t.status = TaskStatus.queued ∧
          t.timeout_seconds = s.estimated_duration_seconds * 2 ∧
          t.idempotency_key = s.idempotency_key ∧
          t.step_id = s.step_id ∧
          t.deployment_id = did) ts steps := by
  intro steps
  induction steps with
  | nil =>
      intro i st
      exact ⟨[], st, rfl, rfl, rfl, List.Forall₂.nil⟩
  | cons step rest ih =>
      intro i st
      have henq : (mkTaskForStep (gen i) did step).enqueue =
          Except.ok (Task.touch { mkTaskForStep (gen i) did step with status := TaskStatus.queued }) := by
        simp [Task.enqueue, Task.transition_to, mkTaskForStep, taskValidTransitions]
      obtain ⟨ts, st3, hrun, hdep, hpub, hfa⟩ := ih (i + 1)
        { st with tasks := storeSet st.tasks (Task.touch { mkTaskForStep (gen i) did step with status := TaskStatus.queued }).id (Task.touch { mkTaskForStep (gen i) did step with status := TaskStatus.queued }) }
      refine ⟨Task.touch { mkTaskForStep (gen i) did step with status := TaskStatus.queued } :: ts, st3, ?_, hdep, hpub, List.Forall₂.cons ⟨rfl, rfl, rfl, rfl, rfl⟩ hfa⟩
      simp only [executeLoop]
      rw [henq]
      dsimp only
      rw [hrun]

/-- **C5 counterexample.**  A stored deployment with a plan whose
status does not admit EXECUTING (here: already EXECUTING, exactly the
state a second `execute_deployment` call meets): the call raises
`InvalidStateTransition`, a third error class beyond the two the claim
allows, instead of succeeding. -/
theorem spec_C5_counterexample :
    executingDep.plan = some samplePlan ∧
    execute_deployment tGen execState "d1" =
      Except.error (DomainError.invalidStateTransition, execState) := by
  exact ⟨rfl, rfl⟩

/-- **C5 (amended).**  `execute_deployment` fails with a not-found
error on an unknown id and with `DeploymentPlanMissing` when the
stored deployment has no plan; when the plan is present it succeeds
exactly when the deployment status admits the EXECUTING transition
(else it raises `InvalidStateTransition`), and on success the stored
deployment is EXECUTING and the returned tasks correspond one-to-one
and in order to the plan steps, each QUEUED, with
`timeout_seconds = 2 × estimated_duration_seconds` and the step's
idempotency key. -/
theorem spec_C5_amended (gen : Nat → String) (st : ServiceState)
    (deployment_id : String) :
    (storeGet st.deployments deployment_id = none →
      execute_deployment gen st deployment_id =
        Except.error (DomainError.deploymentNotFound, st)) ∧
    (∀ d, storeGet st.deployments deployment_id = some d → d.plan = none →
      execute_deployment gen st deployment_id =
        Except.error (DomainError.deploymentPlanMissing, st)) ∧
    (∀ d plan, storeGet st.deployments deployment_id = some d →
      d.plan = some plan →
      DeploymentStatus.executing ∉ validTransitions d.status →
      execute_deployment gen st deployment_id =
        Except.error (DomainError.invalidStateTransition, st)) ∧
    (∀ d plan, storeGet st.deployments deployment_id = some d →
      d.plan = some plan →
      DeploymentStatus.executing ∈ validTransitions d.status →
      ∃ ts st3,
        execute_deployment gen st deployment_id = Except.ok (ts, st3) ∧
        (∃ d2, storeGet st3.deployments d.id = some d2 ∧
          d2.status = DeploymentStatus.executing) ∧
        List.Forall₂ (fun (t : Task) (s : ExecutionStep) =>
          t.status = TaskStatus.queued ∧
          t.timeout_seconds = s.estimated_duration_seconds * 2 ∧
          t.idempotency_key = s.idempotency_key ∧
          t.step_id = s.step_id ∧
          t.deployment_id = deployment_id) ts plan.steps) := by
  refine ⟨?_, ?_, ?_, ?_⟩
  · intro h
    simp [execute_deployment, h]
  · intro d hd hplan
    simp [execute_deployment, hd, hplan]
  · intro d plan hd hplan hm
    have hstart : d.start_execution =
        Except.error (DomainError.invalidStateTransition, d) := by
      simp [Deployment.start_execution, Deployment.transition_to, hm,
        Bind.bind, Except.bind]
    simp [execute_deployment, hd, hplan, hstart]
  · intro d plan hd hplan hm
    have hstart : d.start_execution = Except.ok ((Deployment.touch { d with status := DeploymentStatus.executing }).add_event (DomainEvent.started d.id d.id)) := by
      simp [Deployment.start_execution, Deployment.transition_to, hm,
        Bind.bind, Except.bind, Pure.pure, Except.pure, Deployment.touch,
        Deployment.add_event]
    obtain ⟨ts, st3, hrun, hdepst, hpub, hfa⟩ :=
      executeLoop_ok gen deployment_id plan.steps 0
        { st with deployments := storeSet st.deployments ((Deployment.touch { d with status := DeploymentStatus.executing }).add_event (DomainEvent.started d.id d.id)).id ((Deployment.touch { d with status := DeploymentStatus.executing }).add_event (DomainEvent.started d.id d.id)) }
    refine ⟨ts, publishEvents st3 ((Deployment.touch { d with status := DeploymentStatus.executing }).add_event (DomainEvent.started d.id d.id)), ?_, ?_, hfa⟩
    · simp only [execute_deployment]
      rw [hd]
      dsimp only
      rw [hplan]
      dsimp only
      rw [hstart]
      dsimp only
      rw [hrun]
      dsimp only
      rw [hplan]
    · refine ⟨(Deployment.touch { d with status := DeploymentStatus.executing }).add_event (DomainEvent.started d.id d.id), ?_, rfl⟩
      have hid : ((Deployment.touch { d with status := DeploymentStatus.executing }).add_event (DomainEvent.started d.id d.id)).id = d.id := rfl
      simp only [publishEvents]
      rw [hdepst]
      rw [← hid]
      exact storeGet_storeSet_self _ _ _

/-- **C5 witness.**  The amended theorem applied to a stored PLANNED
deployment with a one-step plan, and to an unknown id. -/
theorem spec_C5_amended_witness :
    (execute_deployment tGen plannedState "missing" =
      Except.error (DomainError.deploymentNotFound, plannedState)) ∧
    (∃ ts st3,
      execute_deployment tGen plannedState "d1" = Except.ok (ts, st3) ∧
      (∃ d2, storeGet st3.deployments plannedDep.id = some d2 ∧
        d2.status = DeploymentStatus.executing) ∧
      List.Forall₂ (fun (t : Task) (s : ExecutionStep) =>
        t.status = TaskStatus.queued ∧
        t.timeout_seconds = s.estimated_duration_seconds * 2 ∧
        t.idempotency_key = s.idempotency_key ∧
        t.step_id = s.step_id ∧
        t.deployment_id = "d1") ts samplePlan.steps) :=
  ⟨(spec_C5_amended tGen plannedState "missing").1 (by decide),
   (spec_C5_amended tGen plannedState "d1").2.2.2 plannedDep samplePlan
     (by decide) rfl (by decide)⟩

/-- **C7 counterexample.**  `handle_task_completion` returns normally:
with an unknown task id it is a silent no-op, and with a task whose
deployment id is unknown it persists the task update and returns —
neither path surfaces a not-found error. -/
theorem spec_C7_counterexample :
    handle_task_completion emptyState "t1" true none "" =
      Except.ok emptyState ∧
    handle_task_completion orphanState "t1" true none "" =
      Except.ok { orphanState with tasks := [("t1", { orphanTask with status := TaskStatus.succeeded, version := 2 })] } := by
  exact ⟨rfl, rfl⟩

/-- **C7 (amended).**  With an unknown task id,
`handle_task_completion` returns normally leaving the state unchanged;
with a known task whose succeed/fail transition goes through but whose
deployment id is unknown, it returns normally having persisted only
the task update.  No not-found error is raised on either path. -/
theorem spec_C7_amended (st : ServiceState) (task_id : String)
    (success : Bool) (output : Option (List (String × String)))
    (error : String) :
    (storeGet st.tasks task_id = none →
      handle_task_completion st task_id success output error =
        Except.ok st) ∧
    (∀ task task2, storeGet st.tasks task_id = some task →
      (if success then task.succeed output else task.fail error) =
        Except.ok task2 →
      storeGet st.deployments task2.deployment_id = none →
      handle_task_completion st task_id success output error =
        Except.ok { st with tasks := storeSet st.tasks task2.id task2 }) := by
  constructor
  · intro h
    simp [handle_task_completion, h]
  · intro task task2 htask hdone hdep
    simp only [handle_task_completion]
    rw [htask]
    dsimp only
    rw [hdone]
    dsimp only
    rw [hdep]

/-- **C7 witness.**  The amended theorem applied at the two concrete
states of the counterexample. -/
theorem spec_C7_amended_witness :
    handle_task_completion emptyState "t1" true none "" =
      Except.ok emptyState ∧
    handle_task_completion orphanState "t1" true none "" =
      Except.ok { orphanState with tasks := storeSet orphanState.tasks "t1" { orphanTask with status := TaskStatus.succeeded, version := 2 } } :=
  ⟨(spec_C7_amended emptyState "t1" true none "").1 rfl,
   (spec_C7_amended orphanState "t1" true none "").2 orphanTask
     { orphanTask with status := TaskStatus.succeeded, version := 2 }
     rfl rfl rfl⟩

/-- **C8 (confirmed).**  `scan_deployment` raises `DriftScanError`
exactly on an unknown deployment id; on success it persists the
detector report and publishes a `drift.detected` event with payload
(deployment_id, drift count, max severity) if and only if the
persisted report has at least one drift item. -/
theorem spec_C8
    (detector : String → List (String × ResourceSpec) → DriftReport)
    (st : DriftState) (deployment_id : String) :
    (storeGet st.deployments deployment_id = none →
      scan_deployment detector st deployment_id =
        Except.error (DomainError.driftScanError, st)) ∧
    (∀ d, storeGet st.deployments deployment_id = some d →
      ∃ st2,
        scan_deployment detector st deployment_id =
          Except.ok (detector deployment_id (build_expected_state d), st2) ∧
        storeGet st2.reports
            (detector deployment_id (build_expected_state d)).id =
          some (detector deployment_id (build_expected_state d)) ∧
        ((detector deployment_id (build_expected_state d)).has_drift = true →
          st2.published = st.published ++
            [(deployment_id,
              (detector deployment_id (build_expected_state d)).items.length,
              (detector deployment_id (build_expected_state d)).max_severity.value)]) ∧
        ((detector deployment_id (build_expected_state d)).has_drift = false →
          st2.published = st.published)) := by
  constructor
  · intro h
    simp [scan_deployment, h]
  · intro d hd
    by_cases hdrift :
        (detector deployment_id (build_expected_state d)).has_drift = true
    · refine ⟨{ st with reports := storeSet st.reports (detector deployment_id (build_expected_state d)).id (detector deployment_id (build_expected_state d)), published := st.published ++ [(deployment_id, (detector deployment_id (build_expected_state d)).items.length, (detector deployment_id (build_expected_state d)).max_severity.value)] }, ?_, ?_, ?_, ?_⟩
      · simp only [scan_deployment]
        rw [hd]
        dsimp only
        rw [if_pos hdrift]
      · exact storeGet_storeSet_self _ _ _
      · intro _
        rfl
      · intro hfalse
        rw [hdrift] at hfalse
        cases hfalse
    · refine ⟨{ st with reports := storeSet st.reports (detector deployment_id (build_expected_state d)).id (detector deployment_id (build_expected_state d)) }, ?_, ?_, ?_, ?_⟩
      · simp only [scan_deployment]
        rw [hd]
        dsimp only
        rw [if_neg (by simpa using hdrift)]
      · exact storeGet_storeSet_self _ _ _
      · intro htrue
        exact absurd htrue hdrift
      · intro _
        rfl

/-- **C8 witness.**  `spec_C8` applied to a concrete store: the
unknown id raises, and a one-item report is persisted and published
with drift_count 1 and max_severity "high". -/
theorem spec_C8_witness :
    scan_deployment hiDetector driftState "missing" =
      Except.error (DomainError.driftScanError, driftState) ∧
    (∃ st2,
      scan_deployment hiDetector driftState "d1" =
        Except.ok (hiDetector "d1" (build_expected_state sampleDep), st2) ∧
      storeGet st2.reports
          (hiDetector "d1" (build_expected_state sampleDep)).id =
        some (hiDetector "d1" (build_expected_state sampleDep)) ∧
      ((hiDetector "d1" (build_expected_state sampleDep)).has_drift = true →
        st2.published = driftState.published ++ [("d1", 1, "high")]) ∧
      ((hiDetector "d1" (build_expected_state sampleDep)).has_drift = false →
        st2.published = driftState.published)) :=
  ⟨(spec_C8 hiDetector driftState "missing").1 rfl,
   (spec_C8 hiDetector driftState "d1").2 sampleDep rfl⟩

end Orch
